import Mathlib

/-!
Verification of the chat/session orchestration core of the Analyst AI
document-analysis client (src/index.js): the attachment queue
(`processFileUpload`, `removeFile`), prompt composition, turn submission and
streaming ingestion (`handleSendMessage`), the resumable upload protocol
(`uploadFileToGemini`), and session management (`saveApiKey`, `resetSession`,
the model-select change listener).  The JavaScript is shallowly embedded as
pure functions over an explicit application state; browser I/O (DOM rendering,
alerts, progress bars, localStorage) is reflected as returned outcome values
where the claims need it and omitted where they do not.
-/

namespace AnalystAI

/-! ### String helpers mirroring the JavaScript built-ins used by the source -/

/-- Whitespace characters relevant to the strings handled by the client;
used by the model of `String.prototype.trim`. -/
def isSpaceChar (c : Char) : Bool := c = ' ' || c = '\t' || c = '\n' || c = '\r'

/-- Model of JavaScript `s.trim()`: strip whitespace from both ends. -/
def jsTrim (s : String) : String :=
  String.mk (((s.data.dropWhile isSpaceChar).reverse.dropWhile isSpaceChar).reverse)

/-- Model of JavaScript `s.toLowerCase()` on the ASCII file names involved. -/
def lowerString (s : String) : String := String.mk (s.data.map Char.toLower)

/-- Model of JavaScript `s.includes(pat)`: `pat` occurs contiguously in `s`. -/
def strIncludes (s pat : String) : Bool :=
  (List.range (s.data.length + 1)).any (fun i => pat.data.isPrefixOf (s.data.drop i))

/-- Characters of a name from its last '.' on; the whole string when there is
no '.'.  This mirrors `file.name.substring(file.name.lastIndexOf('.'))` in
`processFileUpload`: when `lastIndexOf` returns -1, `substring(-1)` yields the
whole string. -/
def fromLastDot : List Char → List Char
  | [] => []
  | c :: cs => if '.' ∈ cs then fromLastDot cs else c :: cs

/-- The extension substring extracted by `processFileUpload`. -/
def fileExtension (n : String) : String := String.mk (fromLastDot n.data)

/-! ### Attachment queue (src/index.js `processFileUpload`, `removeFile`) -/

/-- A browser `File` as far as the client inspects it: name, byte size, MIME
type.  The raw bytes play no role in the queue logic. -/
structure JSFile where
  name : String
  size : Nat
  mime : String
deriving DecidableEq, Repr

/-- The `validTypes` array of `processFileUpload`. -/
def validTypes : List String :=
  [".pdf", ".docx", ".txt", ".html", ".htm", ".jpg", ".jpeg", ".png", ".gif",
   ".bmp", ".tiff"]

/-- The alert text shown when a file of a disallowed type is offered. -/
def invalidTypeAlert : String :=
  "Please upload PDF, DOCX, TXT, HTML, HTM, or image files (JPG, PNG, GIF, BMP, TIFF) only."

/-- `validTypes.includes(fileExtension.toLowerCase())` from `processFileUpload`. -/
def isValidType (n : String) : Bool := validTypes.contains (lowerString (fileExtension n))

/-- Observable result of one `processFileUpload` call: appended to the queue,
silently skipped as a duplicate, or rejected with the user-facing alert. -/
inductive UploadOutcome where
  | queued
  | skippedDuplicate
  | rejected (alertText : String)
deriving DecidableEq, Repr

/-- src/index.js `processFileUpload(file)` acting on the `uploadedFiles` queue.
The duplicate test is the source's `uploadedFiles.findIndex(f => f.name ===
file.name && f.size === f.size)`; note that the second conjunct compares a
queued file's size with itself, exactly as the JavaScript does. -/
def processFileUpload (file : JSFile) (q : List JSFile) : List JSFile × UploadOutcome :=
  if isValidType file.name then
    match q.findIdx? (fun f => f.name == file.name && f.size == f.size) with
    | none => (q ++ [file], UploadOutcome.queued)
    | some _ => (q, UploadOutcome.skippedDuplicate)
  else (q, UploadOutcome.rejected invalidTypeAlert)

/-- The queue contents after a sequence of `processFileUpload` calls starting
from the empty queue. -/
def addAll (files : List JSFile) : List JSFile :=
  files.foldl (fun q f => (processFileUpload f q).1) []

/-- src/index.js `removeFile(index)`: splice out one entry when the index is
in range, otherwise do nothing.  The JavaScript index is a number, modelled as
an integer. -/
def removeFile (index : Int) (q : List JSFile) : List JSFile :=
  if 0 ≤ index ∧ index < (q.length : Int) then q.eraseIdx index.toNat else q

/-! ### Transcript data model -/

inductive Role where
  | user
  | model
deriving DecidableEq, Repr

/-- The `tokenCounts` record carried by model messages. -/
structure TokenCounts where
  input : Nat
  output : Nat
  total : Option Nat
deriving DecidableEq, Repr

/-- A transcript message `{id, role, text, tokenCounts}`. -/
structure Message where
  id : Nat
  role : Role
  text : String
  tokenCounts : Option TokenCounts
deriving DecidableEq, Repr

/-- A prompt preset `{id, name, content, isDefault}`. -/
structure PromptPrefix where
  id : String
  name : String
  content : String
  isDefault : Bool
deriving DecidableEq, Repr

/-- The module-level mutable state of src/index.js that the orchestration
core reads and writes: transcript, loading flag, attachment queue, chat
session handle (present or null), API key, SDK client handle, the message
input box contents, and the prompt-preset state. -/
structure AppState where
  messages : List Message
  isLoading : Bool
  uploadedFiles : List JSFile
  chatSession : Bool
  apiKey : String
  genAI : Bool
  messageInputValue : String
  activePrefix : String
  promptPrefixes : List PromptPrefix
deriving DecidableEq, Repr

/-- src/index.js `getActivePrefixContent()`. -/
def getActivePrefixContent (activePfx : String) (presets : List PromptPrefix) : String :=
  if activePfx ≠ "" then
    match presets.find? (fun p => p.id == activePfx) with
    | some p => p.content
    | none => ""
  else ""

/-! ### Session management (src/index.js `initializeChat`, `resetSession`,
`saveApiKey`, the model-select change listener) -/

def baseWelcomeText : String :=
  "Hello! I'm Analyst AI specialized in document analysis. I can help you analyze documents, validate data consistency, and detect duplicate metrics across reports.\n\nUpload documents or ask me anything!"

def setupRequiredNote : String :=
  "\n\n**Important Setup Required**: You need to set up your Gemini API key before using this application. Click the \"Set API Key\" button in the top right corner to get started."

/-- The greeting text of `initializeChat`, which appends setup instructions
when no API key is stored. -/
def welcomeText (apiKey : String) : String :=
  if apiKey = "" then baseWelcomeText ++ setupRequiredNote else baseWelcomeText

/-- src/index.js `initializeChat()`: the transcript is replaced by exactly one
model-role greeting message. -/
def initChatMessages (now : Nat) (apiKey : String) : List Message :=
  [⟨now, Role.model, welcomeText apiKey, none⟩]

/-- src/index.js `resetSession()`: clear the transcript, null the chat
session, clear the attachment queue, and re-seed the greeting. -/
def resetSession (now : Nat) (s : AppState) : AppState :=
  { s with messages := initChatMessages now s.apiKey,
           chatSession := false,
           uploadedFiles := [] }

/-- The `modelSelect` change listener: a `confirm` dialog guards a full
`resetSession`; cancelling does nothing (the selection is not reverted). -/
def modelSelectChange (now : Nat) (confirmed : Bool) (s : AppState) : AppState :=
  if confirmed then resetSession now s else s

def apiKeyUpdatedText : String :=
  "API key has been updated successfully! You can now use the chat."

/-- src/index.js `saveApiKey(event)`: an empty (trimmed) key is rejected with
an alert; otherwise the key is stored, the SDK client re-created, the chat
session nulled, and a confirmation message appended to the transcript. -/
def saveApiKey (now : Nat) (raw : String) (s : AppState) : AppState :=
  if jsTrim raw = "" then s
  else
    { s with apiKey := jsTrim raw,
             genAI := true,
             chatSession := false,
             messages := s.messages ++ [⟨now, Role.model, apiKeyUpdatedText, none⟩] }

/-! ### Remote model gateway: resumable upload (src/index.js `uploadFileToGemini`) -/

/-- The stored-file descriptor returned by a completed upload. -/
structure FileMeta where
  mimeType : String
  uri : String
deriving DecidableEq, Repr

/-- Environment response to the upload-initiation POST: a non-success status
with error body text, a success without the `X-Goog-Upload-URL` header, or a
success carrying the upload-session URL. -/
inductive InitResp where
  | httpError (errorText : String)
  | okNoUrl
  | ok (uploadUrl : String)
deriving DecidableEq, Repr

/-- Environment response to the upload body transfer: a parsed success, a 2xx
with unparseable body, a non-2xx status, or a network error. -/
inductive TransferResp where
  | ok (meta : FileMeta)
  | parseError (responseText : String)
  | httpError (status : Nat) (responseText : String)
  | networkError
deriving DecidableEq, Repr

/-- src/index.js `uploadFileToGemini(file)`: each failure mode raises the
exact error message of the source. -/
def uploadFileToGemini (apiKey : String) (file : JSFile) (init : InitResp)
    (transfer : TransferResp) : Except String FileMeta :=
  if apiKey = "" then Except.error "API Key is required for file upload"
  else
    match init with
    | InitResp.httpError errorText =>
        Except.error ("Failed to initialize upload: " ++ errorText)
    | InitResp.okNoUrl => Except.error "Failed to get upload URL from headers"
    | InitResp.ok _ =>
        match transfer with
        | TransferResp.ok meta => Except.ok meta
        | TransferResp.parseError rt =>
            Except.error ("Failed to parse upload response: " ++ rt)
        | TransferResp.httpError st rt =>
            Except.error ("Upload failed with status " ++ toString st ++ ": " ++ rt)
        | TransferResp.networkError => Except.error "Network error during upload"

/-- The per-file upload loop of `handleSendMessage` (the `for` loop over
`uploadedFiles`): files are uploaded strictly sequentially and the first
failure aborts the whole turn with `Failed to upload <name>: <inner>`. -/
def runUploads (apiKey : String) :
    List (JSFile × (InitResp × TransferResp)) → Except String (List FileMeta)
  | [] => Except.ok []
  | (f, resp) :: rest =>
    match uploadFileToGemini apiKey f resp.1 resp.2 with
    | Except.error e => Except.error ("Failed to upload " ++ f.name ++ ": " ++ e)
    | Except.ok meta =>
      match runUploads apiKey rest with
      | Except.error e => Except.error e
      | Except.ok metas => Except.ok (meta :: metas)

/-- The upload phase of a turn: the loop runs only when the queue is
non-empty (`if (uploadedFiles.length > 0)`). -/
def uploadsPhase (apiKey : String) (files : List JSFile)
    (resps : List (InitResp × TransferResp)) : Except String (List FileMeta) :=
  if files.length > 0 then runUploads apiKey (files.zip resps) else Except.ok []

/-! ### Prompt composition (src/index.js `handleSendMessage`, compose step) -/

/-- The synthesized sentence `Please analyze these N files: a, b.` built from
the queue in `handleSendMessage`. -/
def synthesizedFileSentence (files : List JSFile) : String :=
  "Please analyze these " ++ toString files.length ++ " files: " ++
    String.intercalate ", " (files.map (fun f => f.name)) ++ "."

/-- The `finalMessage` composition of `handleSendMessage`: prefix + blank line
+ user text when both are present; prefix + blank line + synthesized sentence
when the prefix is set, the text empty and files queued; otherwise the user
text unchanged. -/
def composeFinalMessage (pfxContent userMessage : String) (files : List JSFile) : String :=
  if pfxContent ≠ "" ∧ userMessage ≠ "" then pfxContent ++ "\n\n" ++ userMessage
  else if pfxContent ≠ "" ∧ files.length > 0 then
    pfxContent ++ "\n\n" ++ synthesizedFileSentence files
  else userMessage

/-- The text of the user-role message pushed to the transcript: the original
(unprefixed) user text when non-empty, else the synthesized file sentence when
files are queued, else no user message at all. -/
def transcriptUserText (userMessage : String) (files : List JSFile) : Option String :=
  if userMessage ≠ "" then some userMessage
  else if files.length > 0 then some (synthesizedFileSentence files) else none

/-- The instruction appended to the outgoing text when files are attached. -/
def enhancementNote : String :=
  "\n\nBefore analyzing the content, please identify the company name and what type of report each document is based on its content (Annual Report, Sustainability Report, or ESG Report) and mention this in your response in the format: \"[Company Name] - [Document Type]\"."

/-- A unit of outgoing request payload: inline text or a stored-file
reference. -/
inductive ContentPart where
  | text (t : String)
  | fileData (mimeType uri : String)
deriving DecidableEq, Repr

/-- The `contentParts` array sent to the model: the (possibly enhanced)
composed text when non-empty, followed by one file-reference part per
successfully uploaded attachment. -/
def turnContentParts (finalMessage : String) (files : List JSFile)
    (metas : List FileMeta) : List ContentPart :=
  (if finalMessage ≠ "" then
    [ContentPart.text
      (finalMessage ++ (if files.length > 0 then enhancementNote else ""))]
   else []) ++ metas.map (fun m => ContentPart.fileData m.mimeType m.uri)

/-! ### Streaming ingestion (src/index.js `handleSendMessage`, stream loop) -/

/-- The cumulative usage counts optionally carried by a chunk. -/
structure UsageMetadata where
  promptTokenCount : Nat
  candidatesTokenCount : Nat
  totalTokenCount : Nat
deriving DecidableEq, Repr

/-- One streamed chunk: a text delta, an optional terminal reason from
`candidates[0].finishReason`, and optional usage metadata. -/
structure Chunk where
  text : String
  finishReason : Option String
  usageMetadata : Option UsageMetadata
deriving DecidableEq, Repr

/-- The inline note appended on a SAFETY stop. -/
def safetyStopText : String := "\n\n**[Generation stopped due to Safety Filters]**"

/-- The inline note appended on a MAX_TOKENS stop. -/
def maxTokensStopText : String := "\n\n**[Generation stopped due to Max Token Limit]**"

/-- The inline note appended on any other abnormal stop reason. -/
def otherStopText (r : String) : String := "\n\n**[Generation stopped: " ++ r ++ "]**"

/-- One iteration of `responseText` accumulation: concatenate the chunk text,
then append a bracketed note when a truthy non-STOP finish reason is
present. -/
def chunkStep (responseText : String) (c : Chunk) : String :=
  let t := responseText ++ c.text
  match c.finishReason with
  | none => t
  | some r =>
    if r ≠ "" ∧ r ≠ "STOP" then
      if r = "SAFETY" then t ++ safetyStopText
      else if r = "MAX_TOKENS" then t ++ maxTokensStopText
      else t ++ otherStopText r
    else t

/-- The successive values taken by `responseText` (and written into the
placeholder message) across the stream loop, starting from the empty string. -/
def placeholderTexts (chunks : List Chunk) : List String :=
  List.scanl chunkStep "" chunks

/-- `tokenCounts` replacement applied when a chunk carries usage metadata. -/
def applyUsage (tc : Option TokenCounts) (u : Option UsageMetadata) : Option TokenCounts :=
  match u with
  | none => tc
  | some m => some ⟨m.promptTokenCount, m.candidatesTokenCount, some m.totalTokenCount⟩

/-- Mutate the first message whose id matches, as the source's
`messages.findIndex(msg => msg.id === responseId)` followed by in-place
mutation does; no match leaves the list unchanged. -/
def updateFirstById (rid : Nat) (upd : Message → Message) : List Message → List Message
  | [] => []
  | m :: ms => if m.id = rid then upd m :: ms else m :: updateFirstById rid upd ms

/-- One stream-loop iteration acting on (responseText, transcript): advance
the accumulated text and write it (plus any usage counts) into the placeholder
message. -/
def processChunk (rid : Nat) (st : String × List Message) (c : Chunk) :
    String × List Message :=
  let rt := chunkStep st.1 c
  (rt, updateFirstById rid
    (fun m => { m with text := rt,
                       tokenCounts := applyUsage m.tokenCounts c.usageMetadata }) st.2)

/-! ### The turn orchestrator (src/index.js `handleSendMessage`) -/

/-- The environment of one turn: the `Date.now()` clock at submission, the
network's answers to each file upload in order, the token-count result
(`none` when the count request failed and was ignored), the streamed chunks
actually delivered, and an error raised by the stream after those chunks
(`none` for a normally completed stream). -/
structure TurnEnv where
  now : Nat
  uploads : List (InitResp × TransferResp)
  tokenCount : Option Nat
  chunks : List Chunk
  streamFailure : Option String
deriving DecidableEq, Repr

/-- The user-role messages (zero or one) pushed at the start of a turn. -/
def userPartMsgs (now : Nat) (userMessage : String) (files : List JSFile) : List Message :=
  match transcriptUserText userMessage files with
  | some t => [⟨now, Role.user, t, none⟩]
  | none => []

/-- Push the user message (original text, never the prefixed composition). -/
def pushUserMessage (now : Nat) (s : AppState) : AppState :=
  { s with messages :=
      s.messages ++ userPartMsgs now (jsTrim s.messageInputValue) s.uploadedFiles }

/-- Clear the input box and lazily ensure the chat session exists. -/
def clearInputAndSession (s : AppState) : AppState :=
  { s with messageInputValue := "", chatSession := true }

/-- Push the empty model-role placeholder with zeroed token counts. -/
def pushPlaceholder (rid : Nat) (s : AppState) : AppState :=
  { s with messages := s.messages ++ [⟨rid, Role.model, "", some ⟨0, 0, none⟩⟩] }

/-- Write a resolved input-token count into an existing `tokenCounts`. -/
def setInputTokens (tc : Option TokenCounts) (n : Nat) : Option TokenCounts :=
  match tc with
  | some t => some { t with input := n }
  | none => none

/-- The best-effort token count: on success the placeholder's input count is
updated; a failure is logged and ignored. -/
def tokenPhase (tc : Option Nat) (rid : Nat) (s : AppState) : AppState :=
  match tc with
  | none => s
  | some n =>
    { s with messages :=
        (updateFirstById rid
          (fun m => { m with tokenCounts := setInputTokens m.tokenCounts n })
          s.messages) }

/-- Consume the delivered chunks in arrival order. -/
def streamPhase (chunks : List Chunk) (rid : Nat) (s : AppState) : AppState :=
  { s with messages := (chunks.foldl (processChunk rid) ("", s.messages)).2 }

/-- `if (uploadedFiles.length > 0) removeAllFiles()` after a successful turn. -/
def consumeFiles (s : AppState) : AppState :=
  if s.uploadedFiles.length > 0 then { s with uploadedFiles := [] } else s

/-- The `try` block of `handleSendMessage` after the two guards: returns the
state reached together with the thrown error message, if any. -/
def tryBody (env : TurnEnv) (s0 : AppState) : AppState × Option String :=
  let s1 := pushPlaceholder (env.now + 1)
    (clearInputAndSession (pushUserMessage env.now { s0 with isLoading := true }))
  match uploadsPhase s1.apiKey s1.uploadedFiles env.uploads with
  | Except.error e => (s1, some e)
  | Except.ok _ =>
    let s2 := streamPhase env.chunks (env.now + 1) (tokenPhase env.tokenCount (env.now + 1) s1)
    match env.streamFailure with
    | some m => (s2, some m)
    | none => (consumeFiles s2, none)

def apiKeyInvalidMarker : String := "API key not valid"

def apiKeyErrorText : String :=
  "API key error: The API key you provided is not valid. Please click the \"Set API Key\" button to update your API key."

def defaultErrorText : String := "Sorry, an error occurred. Please try again."

/-- The `catch` block: derive the user-visible error message, invalidate the
credential when the error signals an invalid API key, and append a model-role
error message to the transcript.  Returns the new state and the appended
text. -/
def catchHandler (errId : Nat) (s : AppState) (msg : String) : AppState × String :=
  if strIncludes msg apiKeyInvalidMarker then
    ({ s with apiKey := "", genAI := false, chatSession := false,
              messages := s.messages ++ [⟨errId, Role.model, apiKeyErrorText, none⟩] },
     apiKeyErrorText)
  else if msg = "" then
    ({ s with messages := s.messages ++ [⟨errId, Role.model, defaultErrorText, none⟩] },
     defaultErrorText)
  else
    ({ s with messages := s.messages ++ [⟨errId, Role.model, "Error: " ++ msg, none⟩] },
     "Error: " ++ msg)

/-- How a submit call ended: the empty-input no-op, the missing-credential
prompt, a completed turn, or an aborted turn with the appended error text. -/
inductive TurnOutcome where
  | noOp
  | promptApiKey
  | success
  | errored (errorMessage : String)
deriving DecidableEq, Repr

/-- src/index.js `handleSendMessage(event)`: guards, try block, catch block,
and the `finally` that always clears the loading flag. -/
def handleSendMessage (env : TurnEnv) (s : AppState) : AppState × TurnOutcome :=
  if jsTrim s.messageInputValue = "" ∧ s.uploadedFiles = [] then (s, TurnOutcome.noOp)
  else if s.apiKey = "" then (s, TurnOutcome.promptApiKey)
  else
    match tryBody env s with
    | (s1, none) => ({ s1 with isLoading := false }, TurnOutcome.success)
    | (s1, some msg) =>
      let r := catchHandler (env.now + 1) s1 msg
      ({ r.1 with isLoading := false }, TurnOutcome.errored r.2)

/-! ### Concrete fixtures for witnesses and counterexamples -/

def fileA : JSFile := ⟨"a.pdf", 1, "application/pdf"⟩

def fileB : JSFile := ⟨"b.txt", 2, "text/plain"⟩

def fileC : JSFile := ⟨"c.png", 3, "image/png"⟩

def fileExe : JSFile := ⟨"x.exe", 4, "application/octet-stream"⟩

/-- Same name as `fileA` but a different byte size. -/
def fileA2 : JSFile := ⟨"a.pdf", 2, "application/pdf"⟩

/-- A quiescent state holding a valid credential. -/
def baseState : AppState :=
  ⟨[], false, [], false, "k", true, "", "", []⟩

/-- Credentialed state with the text "hi" typed and nothing queued. -/
def sText : AppState := { baseState with messageInputValue := "hi" }

/-- Environment whose stream fails immediately with message "boom". -/
def envStreamFail : TurnEnv := ⟨6, [], none, [], some "boom"⟩

/-- Whitespace-only input and empty queue. -/
def sIdle : AppState := { baseState with messageInputValue := "   " }

/-- A benign environment. -/
def envIdle : TurnEnv := ⟨3, [], none, [], none⟩

/-- A chunk terminated by a SAFETY block. -/
def chunkSafety : Chunk := ⟨"abc", some "SAFETY", none⟩

/-- Environment delivering one SAFETY-terminated chunk, then completing. -/
def envSafety : TurnEnv := ⟨6, [], some 5, [chunkSafety], none⟩

/-- Credentialed state with text "go" and one queued attachment. -/
def sUpload : AppState :=
  { baseState with messageInputValue := "go", uploadedFiles := [fileA] }

/-- Environment whose upload initiation returns a non-success status. -/
def envUploadFail : TurnEnv :=
  ⟨6, [(InitResp.httpError "denied", TransferResp.networkError)], none, [], none⟩

/-- Environment whose upload-initiation error body carries the
invalid-credential marker. -/
def envUploadFailBadKey : TurnEnv :=
  ⟨6, [(InitResp.httpError "API key not valid", TransferResp.networkError)], none, [], none⟩

/-- A state with two prior transcript messages and a live chat session. -/
def sTwoMsgs : AppState :=
  { baseState with
      messages := [⟨1, Role.user, "hi", none⟩, ⟨2, Role.model, "yo", none⟩],
      chatSession := true }

/-! ### Invariants of the attachment queue -/

/-- Queue names are pairwise distinct and every entry passed the type check. -/
def queueInvariant (q : List JSFile) : Prop :=
  (q.map (fun f => f.name)).Nodup ∧ ∀ g ∈ q, isValidType g.name = true

/-! ## Theorems -/

lemma isPrefixOf_self (l : List Char) : l.isPrefixOf l = true := by
  induction l with
  | nil => rfl
  | cons a as ih => simp [List.isPrefixOf, ih]

lemma strIncludes_of_suffix (s pat : String) (pre : List Char)
    (h : s.data = pre ++ pat.data) : strIncludes s pat = true := by
  unfold strIncludes
  rw [List.any_eq_true]
  refine ⟨pre.length, ?_, ?_⟩
  · rw [List.mem_range, h, List.length_append]; omega
  · rw [h, List.drop_left]
    exact isPrefixOf_self pat.data

lemma dedup_pred_eq (file g : JSFile) :
    (g.name == file.name && g.size == g.size) = (g.name == file.name) := by
  simp

lemma processFileUpload_preserves (file : JSFile) (q : List JSFile)
    (h : queueInvariant q) : queueInvariant (processFileUpload file q).1 := by
  unfold processFileUpload
  by_cases hv : isValidType file.name
  · rcases hfi : q.findIdx? (fun f => f.name == file.name && f.size == f.size) with _ | i
    · simp only [hv, if_true, hfi]
      refine ⟨?_, ?_⟩
      · rw [List.map_append, List.nodup_append]
        refine ⟨h.1, List.nodup_singleton _, ?_⟩
        intro x hx hx2
        rcases List.mem_map.mp hx with ⟨g, hg, hgname⟩
        have hpred := List.findIdx?_eq_none_iff.mp hfi g hg
        rw [dedup_pred_eq] at hpred
        have hne : g.name ≠ file.name := by simpa using hpred
        have hx3 : x = file.name := by simpa using hx2
        exact hne (hgname.trans hx3)
      · intro g hg
        rcases List.mem_append.mp hg with hg1 | hg2
        · exact h.2 g hg1
        · rw [List.mem_singleton.mp hg2]; exact hv
    · simp only [hv, if_true, hfi]
      exact h
  · simp only [Bool.not_eq_true] at hv
    simp only [hv, Bool.false_eq_true, if_false]
    exact h

lemma addAll_invariant_aux (files : List JSFile) (q : List JSFile)
    (h : queueInvariant q) :
    queueInvariant (files.foldl (fun acc f => (processFileUpload f acc).1) q) := by
  induction files generalizing q with
  | nil => simpa using h
  | cons f fs ih => exact ih _ (processFileUpload_preserves f q h)

lemma eraseIdx_take_drop {α : Type} (l : List α) (i : Nat) :
    l.eraseIdx i = l.take i ++ l.drop (i + 1) := by
  induction l generalizing i with
  | nil => simp [List.eraseIdx]
  | cons a as ih =>
    cases i with
    | zero => simp [List.eraseIdx]
    | succ j => simp [List.eraseIdx, ih]

/-- C1 counterexample: a file of an allowed type whose name matches a queued
entry but whose size matches no queued entry is nevertheless skipped — the
queue is left unchanged even though no already-queued attachment has both the
same name and the same byte size as the incoming file. -/
theorem C1_counterexample :
    (processFileUpload fileA2 [fileA]).1 = [fileA] ∧
    (∀ g ∈ [fileA], ¬(g.name = fileA2.name ∧ g.size = fileA2.size)) := by
  decide

/-- C1 (amended): for an allowed file, `add` silently skips exactly when some
already-queued attachment has the same *name* as the incoming file (the size
conjunct of the source's test compares a queued size with itself and is always
true); otherwise the file is appended to the end of the queue. -/
theorem C1_theorem (file : JSFile) (q : List JSFile)
    (hv : isValidType file.name = true) :
    ((∃ g ∈ q, g.name = file.name) →
      processFileUpload file q = (q, UploadOutcome.skippedDuplicate)) ∧
    ((∀ g ∈ q, g.name ≠ file.name) →
      processFileUpload file q = (q ++ [file], UploadOutcome.queued)) := by
  constructor
  · rintro ⟨g, hg, he⟩
    rcases hfi : q.findIdx? (fun f => f.name == file.name && f.size == f.size) with _ | i
    · exfalso
      have hpred := List.findIdx?_eq_none_iff.mp hfi g hg
      rw [dedup_pred_eq] at hpred
      simp [he] at hpred
    · unfold processFileUpload
      rw [if_pos hv, hfi]
  · intro hall
    have hnone : q.findIdx? (fun f => f.name == file.name && f.size == f.size) = none := by
      apply List.findIdx?_eq_none_iff.mpr
      intro g hg
      rw [dedup_pred_eq]
      simp [hall g hg]
    unfold processFileUpload
    rw [if_pos hv, hnone]

theorem C1_witness :
    isValidType fileA.name = true ∧
    processFileUpload fileA [] = ([] ++ [fileA], UploadOutcome.queued) :=
  ⟨by decide, (C1_theorem fileA [] (by decide)).2 (by simp)⟩

/-- C5: after any sequence of `add(file)` calls starting from the empty queue,
no two queued entries share a (name, size) pair and every queued entry has an
allowed extension; a file with a disallowed extension is rejected with the
user-facing alert and the queue is unchanged. -/
theorem C5_theorem (files : List JSFile) (file : JSFile) (q : List JSFile) :
    ((addAll files).Pairwise (fun a b => ¬(a.name = b.name ∧ a.size = b.size)) ∧
      ∀ g ∈ addAll files, isValidType g.name = true) ∧
    (isValidType file.name = false →
      processFileUpload file q = (q, UploadOutcome.rejected invalidTypeAlert)) := by
  constructor
  · have h := addAll_invariant_aux files [] ⟨List.nodup_nil, by simp⟩
    refine ⟨?_, h.2⟩
    have h2 := List.pairwise_map.mp h.1
    exact h2.imp (fun hne hc => hne hc.1)
  · intro hv
    simp [processFileUpload, hv]

theorem C5_witness :
    ((addAll [fileA, fileB]).Pairwise
        (fun a b => ¬(a.name = b.name ∧ a.size = b.size)) ∧
      ∀ g ∈ addAll [fileA, fileB], isValidType g.name = true) ∧
    processFileUpload fileExe [] = ([], UploadOutcome.rejected invalidTypeAlert) :=
  ⟨(C5_theorem [fileA, fileB] fileExe []).1,
   (C5_theorem [fileA, fileB] fileExe []).2 (by decide)⟩

/-- C10: `removeFile(index)` with an out-of-range index leaves the queue
unchanged (and, being a total function, raises nothing); an in-range index
removes exactly the entry at that position, keeping all other entries in
their relative order. -/
theorem C10_theorem (i : Int) (q : List JSFile) :
    (¬(0 ≤ i ∧ i < (q.length : Int)) → removeFile i q = q) ∧
    (0 ≤ i → i < (q.length : Int) →
      removeFile i q = q.take i.toNat ++ q.drop (i.toNat + 1) ∧
      (removeFile i q).length + 1 = q.length) := by
  constructor
  · intro h
    simp only [removeFile, if_neg h]
  · intro h1 h2
    have hr : removeFile i q = q.eraseIdx i.toNat := by
      simp only [removeFile, if_pos (And.intro h1 h2)]
    have hlt : i.toNat < q.length := by omega
    constructor
    · rw [hr]
      exact eraseIdx_take_drop q i.toNat
    · rw [hr, List.length_eraseIdx]
      simp only [hlt, if_true]
      omega

theorem C10_witness :
    removeFile (-1) [fileA] = [fileA] ∧
    (removeFile 1 [fileA, fileB, fileC] =
        [fileA, fileB, fileC].take 1 ++ [fileA, fileB, fileC].drop 2 ∧
      (removeFile 1 [fileA, fileB, fileC]).length + 1 =
        ([fileA, fileB, fileC] : List JSFile).length) :=
  ⟨(C10_theorem (-1) [fileA]).1 (by decide),
   (C10_theorem 1 [fileA, fileB, fileC]).2 (by decide) (by decide)⟩

lemma string_eq_empty_of_data_nil (a : String) (h : a.data = []) : a = "" :=
  String.ext h

lemma strconcat_left_ne_empty (a b : String) (h : a.data ≠ []) : a ++ b ≠ "" := by
  intro he
  have hd := congrArg String.data he
  rw [String.data_append] at hd
  exact h (List.append_eq_nil.mp hd).1

lemma ne_of_data_head (a b : String) (h : a.data.head? ≠ b.data.head?) : a ≠ b :=
  fun he => h (congrArg (fun t => t.data.head?) he)

lemma error_concat_ne_apiKeyErrorText (msg : String) :
    ("Error: " ++ msg) ≠ apiKeyErrorText := by
  apply ne_of_data_head
  rw [String.data_append,
    show ("Error: " : String).data = 'E' :: ("rror: " : String).data from by decide]
  simp only [List.cons_append, List.head?_cons]
  decide

/-- C4: a submit call with whitespace-only text and an empty attachment queue
returns the state completely unchanged — transcript, loading flag and queue
included — with the no-op outcome. -/
theorem C4_theorem (env : TurnEnv) (s : AppState)
    (h1 : jsTrim s.messageInputValue = "") (h2 : s.uploadedFiles = []) :
    handleSendMessage env s = (s, TurnOutcome.noOp) := by
  unfold handleSendMessage
  rw [if_pos (And.intro h1 h2)]

theorem C4_witness :
    jsTrim sIdle.messageInputValue = "" ∧
    handleSendMessage envIdle sIdle = (sIdle, TurnOutcome.noOp) :=
  ⟨by decide, C4_theorem envIdle sIdle (by decide) (by decide)⟩

/-- C2 counterexample: a confirmed model change runs the full session reset,
so a message present in the transcript beforehand is gone afterwards — the
transcript is cleared rather than left untouched, contradicting the claim for
model changes (the conversation context is indeed cleared). -/
theorem C2_counterexample :
    (⟨1, Role.user, "hi", none⟩ : Message) ∈ sTwoMsgs.messages ∧
    (⟨1, Role.user, "hi", none⟩ : Message) ∉ (modelSelectChange 5 true sTwoMsgs).messages ∧
    (modelSelectChange 5 true sTwoMsgs).chatSession = false := by
  decide

/-- C2 (amended): saving a new (non-empty, trimmed) API key nulls the chat
session handle and preserves every prior transcript message, appending one
confirmation message; a *confirmed* model change instead performs a full
session reset — it nulls the chat session but replaces the transcript with a
single greeting and clears the queue — and a cancelled model change leaves
the whole state (session handle included) unchanged. -/
theorem C2_theorem (now : Nat) (raw : String) (s : AppState)
    (h : jsTrim raw ≠ "") :
    ((saveApiKey now raw s).chatSession = false ∧
      (saveApiKey now raw s).messages =
        s.messages ++ [⟨now, Role.model, apiKeyUpdatedText, none⟩]) ∧
    ((modelSelectChange now true s).chatSession = false ∧
      (modelSelectChange now true s).messages =
        [⟨now, Role.model, welcomeText s.apiKey, none⟩] ∧
      (modelSelectChange now true s).uploadedFiles = []) ∧
    modelSelectChange now false s = s := by
  refine ⟨⟨?_, ?_⟩, ⟨?_, ?_, ?_⟩, ?_⟩ <;>
    simp [saveApiKey, modelSelectChange, resetSession, initChatMessages, h]

theorem C2_witness :
    (saveApiKey 9 " key2 " sTwoMsgs).chatSession = false ∧
    (saveApiKey 9 " key2 " sTwoMsgs).messages =
      sTwoMsgs.messages ++ [⟨9, Role.model, apiKeyUpdatedText, none⟩] ∧
    modelSelectChange 9 false sTwoMsgs = sTwoMsgs :=
  ⟨(C2_theorem 9 " key2 " sTwoMsgs (by decide)).1.1,
   (C2_theorem 9 " key2 " sTwoMsgs (by decide)).1.2,
   (C2_theorem 9 " key2 " sTwoMsgs (by decide)).2.2⟩

lemma chunkStep_eq_append (t : String) (c : Chunk) :
    ∃ u, chunkStep t c = (t ++ c.text) ++ u := by
  rcases hc : c.finishReason with _ | r
  · exact ⟨"", by simp [chunkStep, hc, String.append_empty]⟩
  · simp only [chunkStep, hc]
    by_cases h1 : r ≠ "" ∧ r ≠ "STOP"
    · rw [if_pos h1]
      by_cases h2 : r = "SAFETY"
      · rw [if_pos h2]; exact ⟨safetyStopText, rfl⟩
      · rw [if_neg h2]
        by_cases h3 : r = "MAX_TOKENS"
        · rw [if_pos h3]; exact ⟨maxTokensStopText, rfl⟩
        · rw [if_neg h3]; exact ⟨otherStopText r, rfl⟩
    · rw [if_neg h1]; exact ⟨"", (String.append_empty _).symm⟩

lemma chunkStep_extends (t : String) (c : Chunk) :
    t.data <+: (chunkStep t c).data ∧ t.length ≤ (chunkStep t c).length := by
  obtain ⟨u, hu⟩ := chunkStep_eq_append t c
  rw [hu]
  constructor
  · exact ⟨c.text.data ++ u.data,
      by rw [String.data_append, String.data_append, List.append_assoc]⟩
  · rw [String.length_append, String.length_append]; omega

lemma scanl_chunk_chain (init : String) (chunks : List Chunk) :
    List.Chain' (fun a b => a.data <+: b.data ∧ a.length ≤ b.length)
      (List.scanl chunkStep init chunks) := by
  induction chunks generalizing init with
  | nil => simp
  | cons c cs ih =>
    rw [List.scanl_cons, List.singleton_append, List.chain'_cons']
    refine ⟨?_, ih (chunkStep init c)⟩
    intro y hy
    have hhead : (List.scanl chunkStep (chunkStep init c) cs).head? =
        some (chunkStep init c) := by
      cases cs <;> rfl
    rw [hhead, Option.mem_def, Option.some.injEq] at hy
    subst hy
    exact chunkStep_extends init c

/-- C6: across successive streamed-chunk applications within one turn, each
new value of the in-flight placeholder's text extends the previous one — the
previous value is a prefix of the new value and the text length never
decreases; and the text written into the placeholder by each stream-loop
iteration is exactly the accumulated `chunkStep` value. -/
theorem C6_theorem (chunks : List Chunk) :
    List.Chain' (fun a b => a.data <+: b.data ∧ a.length ≤ b.length)
      (placeholderTexts chunks) ∧
    ∀ (rid : Nat) (st : String × List Message) (c : Chunk),
      (processChunk rid st c).1 = chunkStep st.1 c :=
  ⟨scanl_chunk_chain "" chunks, fun _ _ _ => rfl⟩

/-- C7 counterexample: with no active prefix, empty user text and one queued
attachment, the composed outgoing text is the empty string — not the
synthesized file-analysis sentence — and the outgoing request then carries no
text part at all, only the file reference parts. -/
theorem C7_counterexample :
    composeFinalMessage "" "" [fileA] = "" ∧
    synthesizedFileSentence [fileA] ≠ "" ∧
    turnContentParts (composeFinalMessage "" "" [fileA]) [fileA] [] = [] := by
  decide

/-- C7 (amended): when a prefix is active and the user text non-empty the
composed outgoing text is prefix, blank line, user text; when a prefix is
active, the text empty and attachments queued it is prefix, blank line,
synthesized file-analysis sentence; with no active prefix the composed text
is the user text unchanged (in particular empty when the text is empty, even
with attachments).  The user-role transcript message carries the unprefixed
original user text when non-empty, and the synthesized sentence when the text
is empty with attachments — never the prefix. -/
theorem C7_theorem (pfxContent userMessage : String) (files : List JSFile) :
    (pfxContent ≠ "" → userMessage ≠ "" →
      composeFinalMessage pfxContent userMessage files =
        pfxContent ++ "\n\n" ++ userMessage) ∧
    (pfxContent ≠ "" → userMessage = "" → files.length > 0 →
      composeFinalMessage pfxContent userMessage files =
        pfxContent ++ "\n\n" ++ synthesizedFileSentence files) ∧
    (pfxContent = "" →
      composeFinalMessage pfxContent userMessage files = userMessage) ∧
    (userMessage ≠ "" → transcriptUserText userMessage files = some userMessage) ∧
    (userMessage = "" → files.length > 0 →
      transcriptUserText userMessage files = some (synthesizedFileSentence files)) := by
  refine ⟨?_, ?_, ?_, ?_, ?_⟩ <;> intros <;>
    simp_all [composeFinalMessage, transcriptUserText]

theorem C7_witness :
    composeFinalMessage "P" "hi" [] = "P" ++ "\n\n" ++ "hi" ∧
    composeFinalMessage "P" "" [fileA] =
      "P" ++ "\n\n" ++ synthesizedFileSentence [fileA] ∧
    composeFinalMessage "" "hi" [fileA] = "hi" ∧
    transcriptUserText "hi" [fileA] = some "hi" ∧
    transcriptUserText "" [fileA] = some (synthesizedFileSentence [fileA]) := by
  have h1 := C7_theorem "P" "hi" ([] : List JSFile)
  have h2 := C7_theorem "P" "" [fileA]
  have h3 := C7_theorem "" "hi" [fileA]
  have h4 := C7_theorem "" "" [fileA]
  exact ⟨h1.1 (by decide) (by decide), h2.2.1 (by decide) rfl (by decide),
    h3.2.2.1 rfl, h3.2.2.2.1 (by decide), h4.2.2.2.2 rfl (by decide)⟩

lemma data_append_ne_nil_left (a b : String) (h : a.data ≠ []) :
    (a ++ b).data ≠ [] := by
  rw [String.data_append]
  intro hc
  exact h (List.append_eq_nil.mp hc).1

lemma tryBody_spec_error (env : TurnEnv) (s : AppState) (e : String)
    (he : uploadsPhase s.apiKey s.uploadedFiles env.uploads = Except.error e) :
    tryBody env s =
      (pushPlaceholder (env.now + 1)
        (clearInputAndSession (pushUserMessage env.now { s with isLoading := true })),
       some e) := by
  unfold tryBody
  dsimp only [pushUserMessage, clearInputAndSession, pushPlaceholder]
  rw [he]

lemma tryBody_spec_ok (env : TurnEnv) (s : AppState) (metas : List FileMeta)
    (hok : uploadsPhase s.apiKey s.uploadedFiles env.uploads = Except.ok metas)
    (hsf : env.streamFailure = none) :
    (tryBody env s).2 = none := by
  unfold tryBody
  dsimp only [pushUserMessage, clearInputAndSession, pushPlaceholder]
  rw [hok, hsf]

lemma catchHandler_spec (errId : Nat) (st : AppState) (msg : String) :
    (∃ pre, (catchHandler errId st msg).1.messages =
      pre ++ [⟨errId, Role.model, (catchHandler errId st msg).2, none⟩]) ∧
    (catchHandler errId st msg).2 ≠ "" ∧
    ((catchHandler errId st msg).2 = apiKeyErrorText →
      (catchHandler errId st msg).1.apiKey = "") := by
  unfold catchHandler
  by_cases h1 : strIncludes msg apiKeyInvalidMarker = true
  · rw [if_pos h1]
    exact ⟨⟨st.messages, rfl⟩, show apiKeyErrorText ≠ "" from by decide, fun _ => rfl⟩
  · rw [if_neg h1]
    by_cases h2 : msg = ""
    · rw [if_pos h2]
      exact ⟨⟨st.messages, rfl⟩, show defaultErrorText ≠ "" from by decide,
        fun he => absurd (show defaultErrorText = apiKeyErrorText from he) (by decide)⟩
    · rw [if_neg h2]
      refine ⟨⟨st.messages, rfl⟩, ?_, ?_⟩
      · exact strconcat_left_ne_empty _ _ (by decide)
      · intro he
        exact absurd (show ("Error: " ++ msg) = apiKeyErrorText from he)
          (error_concat_ne_apiKeyErrorText msg)

lemma catchHandler_plain (errId : Nat) (st : AppState) (msg : String)
    (hm : strIncludes msg apiKeyInvalidMarker = false) (hne : msg ≠ "") :
    catchHandler errId st msg =
      ({ st with messages :=
          st.messages ++ [⟨errId, Role.model, "Error: " ++ msg, none⟩] },
       "Error: " ++ msg) := by
  unfold catchHandler
  rw [hm]
  rw [if_neg (by simp)]
  rw [if_neg hne]

lemma handleSendMessage_errored (env : TurnEnv) (s : AppState) (em : String)
    (h : (handleSendMessage env s).2 = TurnOutcome.errored em) :
    ∃ s1 msg, tryBody env s = (s1, some msg) ∧
      handleSendMessage env s =
        ({ (catchHandler (env.now + 1) s1 msg).1 with isLoading := false },
         TurnOutcome.errored (catchHandler (env.now + 1) s1 msg).2) ∧
      em = (catchHandler (env.now + 1) s1 msg).2 := by
  by_cases hg : jsTrim s.messageInputValue = "" ∧ s.uploadedFiles = []
  · rw [show handleSendMessage env s = (s, TurnOutcome.noOp) from by
      unfold handleSendMessage; rw [if_pos hg]] at h
    exact absurd h (by simp)
  · by_cases hk : s.apiKey = ""
    · rw [show handleSendMessage env s = (s, TurnOutcome.promptApiKey) from by
        unfold handleSendMessage; rw [if_neg hg, if_pos hk]] at h
      exact absurd h (by simp)
    · rcases htb : tryBody env s with ⟨s1, mo⟩
      cases mo with
      | none =>
        rw [show handleSendMessage env s =
            ({ s1 with isLoading := false }, TurnOutcome.success) from by
          unfold handleSendMessage; rw [if_neg hg, if_neg hk, htb]] at h
        exact absurd h (by simp)
      | some msg =>
        have hfin : handleSendMessage env s =
            ({ (catchHandler (env.now + 1) s1 msg).1 with isLoading := false },
             TurnOutcome.errored (catchHandler (env.now + 1) s1 msg).2) := by
          unfold handleSendMessage
          rw [if_neg hg, if_neg hk, htb]
        refine ⟨s1, msg, rfl, hfin, ?_⟩
        rw [hfin] at h
        exact (TurnOutcome.errored.inj h).symm

lemma promptApiKey_of_blank (env2 : TurnEnv) (t : AppState)
    (hk : t.apiKey = "") (hin : jsTrim t.messageInputValue ≠ "") :
    handleSendMessage env2 t = (t, TurnOutcome.promptApiKey) := by
  unfold handleSendMessage
  rw [if_neg (fun hc => hin hc.1), if_pos hk]

/-- C3: whenever a turn ends in an error, a model-role message carrying the
(non-empty) human-readable error description is appended as the last
transcript entry and the loading flag is cleared; when that message is the
invalid-credential one, the stored key has been blanked, so any subsequent
submit with non-empty input returns the credential-entry prompt outcome with
the state untouched, instead of reaching the network. -/
theorem C3_theorem (env : TurnEnv) (s : AppState) (em : String)
    (h : (handleSendMessage env s).2 = TurnOutcome.errored em) :
    (∃ pre, (handleSendMessage env s).1.messages =
      pre ++ [⟨env.now + 1, Role.model, em, none⟩]) ∧
    em ≠ "" ∧
    (handleSendMessage env s).1.isLoading = false ∧
    (em = apiKeyErrorText →
      (handleSendMessage env s).1.apiKey = "" ∧
      ∀ (env2 : TurnEnv) (inp : String), jsTrim inp ≠ "" →
        handleSendMessage env2
            { (handleSendMessage env s).1 with messageInputValue := inp } =
          ({ (handleSendMessage env s).1 with messageInputValue := inp },
           TurnOutcome.promptApiKey)) := by
  obtain ⟨s1, msg, htb, hfin, hem⟩ := handleSendMessage_errored env s em h
  obtain ⟨⟨pre, hmsgs⟩, hne, hinv⟩ := catchHandler_spec (env.now + 1) s1 msg
  subst hem
  rw [hfin]
  refine ⟨⟨pre, hmsgs⟩, hne, rfl, ?_⟩
  intro he
  have hak : (catchHandler (env.now + 1) s1 msg).1.apiKey = "" := hinv he
  refine ⟨hak, ?_⟩
  intro env2 inp hinp
  exact promptApiKey_of_blank env2 _ hak hinp

theorem C3_witness :
    (∃ pre, (handleSendMessage envStreamFail sText).1.messages =
      pre ++ [⟨7, Role.model, "Error: boom", none⟩]) ∧
    ("Error: boom" : String) ≠ "" ∧
    (handleSendMessage envStreamFail sText).1.isLoading = false := by
  have h := C3_theorem envStreamFail sText "Error: boom" (by decide)
  exact ⟨h.1, h.2.1, h.2.2.1⟩

lemma handleSendMessage_success_of (env : TurnEnv) (s : AppState)
    (hg : ¬(jsTrim s.messageInputValue = "" ∧ s.uploadedFiles = []))
    (hk : s.apiKey ≠ "")
    (hup : ∃ metas, uploadsPhase s.apiKey s.uploadedFiles env.uploads = Except.ok metas)
    (hsf : env.streamFailure = none) :
    (handleSendMessage env s).2 = TurnOutcome.success := by
  obtain ⟨metas, hok⟩ := hup
  have ht : (tryBody env s).2 = none := tryBody_spec_ok env s metas hok hsf
  unfold handleSendMessage
  rw [if_neg hg, if_neg hk]
  rcases htb : tryBody env s with ⟨s1, mo⟩
  rw [htb] at ht
  cases mo with
  | none => rfl
  | some m => exact absurd ht (by simp)

lemma otherStopText_bracketed (r : String) :
    ("\n\n**[").data <+: (otherStopText r).data ∧
    ("]**").data <:+ (otherStopText r).data := by
  unfold otherStopText
  constructor
  · rw [String.data_append, String.data_append]
    have p1 : ("\n\n**[" : String).data <+:
        ("\n\n**[Generation stopped: " : String).data := by decide
    exact p1.trans ((List.prefix_append _ _).trans (List.prefix_append _ _))
  · rw [String.data_append, String.data_append]
    exact List.suffix_append _ _

lemma stopText_bracketed (r : String) :
    ("\n\n**[").data <+: (if r = "SAFETY" then safetyStopText
      else if r = "MAX_TOKENS" then maxTokensStopText else otherStopText r).data ∧
    ("]**").data <:+ (if r = "SAFETY" then safetyStopText
      else if r = "MAX_TOKENS" then maxTokensStopText else otherStopText r).data := by
  by_cases h3 : r = "SAFETY"
  · rw [if_pos h3]
    exact ⟨by decide, by decide⟩
  · rw [if_neg h3]
    by_cases h4 : r = "MAX_TOKENS"
    · rw [if_pos h4]
      exact ⟨by decide, by decide⟩
    · rw [if_neg h4]
      exact otherStopText_bracketed r

lemma chunkStep_abnormal (t : String) (c : Chunk) (r : String)
    (hc : c.finishReason = some r) (h1 : r ≠ "") (h2 : r ≠ "STOP") :
    chunkStep t c = (t ++ c.text) ++
      (if r = "SAFETY" then safetyStopText
       else if r = "MAX_TOKENS" then maxTokensStopText else otherStopText r) := by
  simp only [chunkStep, hc]
  rw [if_pos (And.intro h1 h2)]
  by_cases h3 : r = "SAFETY"
  · rw [if_pos h3, if_pos h3]
  · rw [if_neg h3, if_neg h3]
    by_cases h4 : r = "MAX_TOKENS"
    · rw [if_pos h4, if_pos h4]
    · rw [if_neg h4, if_neg h4]

/-- C9: a streamed chunk carrying a truthy non-STOP finish reason appends a
bracketed human-readable annotation after the already-received content —
which is kept in full as a prefix of the new accumulated text — and such
reasons do not fail the turn: with a successfully completed stream the turn
outcome is success, so no error message is produced and nothing is raised on
account of the terminal reason. -/
theorem C9_theorem (env : TurnEnv) (s : AppState)
    (hg : ¬(jsTrim s.messageInputValue = "" ∧ s.uploadedFiles = []))
    (hk : s.apiKey ≠ "")
    (hup : ∃ metas, uploadsPhase s.apiKey s.uploadedFiles env.uploads = Except.ok metas)
    (hsf : env.streamFailure = none) :
    (handleSendMessage env s).2 = TurnOutcome.success ∧
    (∀ (t : String) (c : Chunk) (r : String),
      c.finishReason = some r → r ≠ "" → r ≠ "STOP" →
      ∃ ann, chunkStep t c = (t ++ c.text) ++ ann ∧
        ("\n\n**[").data <+: ann.data ∧ ("]**").data <:+ ann.data) := by
  refine ⟨handleSendMessage_success_of env s hg hk hup hsf, ?_⟩
  intro t c r hc h1 h2
  exact ⟨(if r = "SAFETY" then safetyStopText
    else if r = "MAX_TOKENS" then maxTokensStopText else otherStopText r),
    chunkStep_abnormal t c r hc h1 h2,
    (stopText_bracketed r).1, (stopText_bracketed r).2⟩

theorem C9_witness :
    (handleSendMessage envSafety sText).2 = TurnOutcome.success ∧
    (∃ ann, chunkStep "x" chunkSafety = ("x" ++ chunkSafety.text) ++ ann ∧
      ("\n\n**[").data <+: ann.data ∧ ("]**").data <:+ ann.data) := by
  have h := C9_theorem envSafety sText (by decide) (by decide)
    ⟨[], rfl⟩ rfl
  exact ⟨h.1, h.2 "x" chunkSafety "SAFETY" rfl (by decide) (by decide)⟩

/-- C8 counterexample: when the upload-initiation error body itself contains
the invalid-credential marker, the appended model message is the fixed
credential-error text, which does not contain the upload error text — so the
claim's "one model message containing the upload error text" fails, even
though the turn still aborts with that body text. -/
theorem C8_counterexample :
    (handleSendMessage envUploadFailBadKey sUpload).2 =
      TurnOutcome.errored apiKeyErrorText ∧
    (((handleSendMessage envUploadFailBadKey sUpload).1.messages.drop
        sUpload.messages.length).all
      (fun m => !(strIncludes m.text "API key not valid"))) = true := by
  decide

/-- C8 (amended): when the upload-initiation request for the first queued
file returns a non-success status whose error text does not signal an invalid
credential, the turn aborts with outcome `errored`; the loading flag returns
to false; the attachment queue is not cleared; the transcript gains the turn's
user message, the empty placeholder, and exactly one model message whose text
contains the upload error text. -/
theorem C8_theorem (env : TurnEnv) (s : AppState) (f : JSFile)
    (fs : List JSFile) (errText : String) (tr : TransferResp)
    (rest : List (InitResp × TransferResp))
    (hfiles : s.uploadedFiles = f :: fs)
    (hups : env.uploads = (InitResp.httpError errText, tr) :: rest)
    (hk : ¬s.apiKey = "")
    (hm : strIncludes ("Failed to upload " ++ f.name ++ ": " ++
        ("Failed to initialize upload: " ++ errText)) apiKeyInvalidMarker = false) :
    (handleSendMessage env s).2 = TurnOutcome.errored
      ("Error: " ++ ("Failed to upload " ++ f.name ++ ": " ++
        ("Failed to initialize upload: " ++ errText))) ∧
    (handleSendMessage env s).1.isLoading = false ∧
    (handleSendMessage env s).1.uploadedFiles = s.uploadedFiles ∧
    (handleSendMessage env s).1.messages =
      s.messages ++ userPartMsgs env.now (jsTrim s.messageInputValue) s.uploadedFiles ++
      [⟨env.now + 1, Role.model, "", some ⟨0, 0, none⟩⟩,
       ⟨env.now + 1, Role.model,
        "Error: " ++ ("Failed to upload " ++ f.name ++ ": " ++
          ("Failed to initialize upload: " ++ errText)), none⟩] ∧
    strIncludes ("Error: " ++ ("Failed to upload " ++ f.name ++ ": " ++
      ("Failed to initialize upload: " ++ errText))) errText = true := by
  have hguard : ¬(jsTrim s.messageInputValue = "" ∧ s.uploadedFiles = []) := by
    rw [hfiles]
    rintro ⟨-, hc⟩
    exact List.cons_ne_nil _ _ hc
  have hupl : uploadsPhase s.apiKey s.uploadedFiles env.uploads = Except.error
      ("Failed to upload " ++ f.name ++ ": " ++
        ("Failed to initialize upload: " ++ errText)) := by
    rw [hfiles, hups]
    unfold uploadsPhase
    rw [if_pos (by simp)]
    rw [List.zip_cons_cons]
    unfold runUploads uploadFileToGemini
    rw [if_neg hk]
  have htb := tryBody_spec_error env s _ hupl
  have hmne : ("Failed to upload " ++ f.name ++ ": " ++
      ("Failed to initialize upload: " ++ errText)) ≠ "" :=
    strconcat_left_ne_empty _ _
      (data_append_ne_nil_left _ _ (data_append_ne_nil_left _ _ (by decide)))
  have hcat := catchHandler_plain (env.now + 1)
    (pushPlaceholder (env.now + 1)
      (clearInputAndSession (pushUserMessage env.now { s with isLoading := true })))
    ("Failed to upload " ++ f.name ++ ": " ++
      ("Failed to initialize upload: " ++ errText)) hm hmne
  have hfin : handleSendMessage env s =
      ({ (catchHandler (env.now + 1)
          (pushPlaceholder (env.now + 1)
            (clearInputAndSession (pushUserMessage env.now { s with isLoading := true })))
          ("Failed to upload " ++ f.name ++ ": " ++
            ("Failed to initialize upload: " ++ errText))).1 with isLoading := false },
       TurnOutcome.errored (catchHandler (env.now + 1)
          (pushPlaceholder (env.now + 1)
            (clearInputAndSession (pushUserMessage env.now { s with isLoading := true })))
          ("Failed to upload " ++ f.name ++ ": " ++
            ("Failed to initialize upload: " ++ errText))).2) := by
    unfold handleSendMessage
    rw [if_neg hguard, if_neg hk, htb]
  refine ⟨?_, ?_, ?_, ?_, ?_⟩
  · rw [hfin, hcat]
  · rw [hfin]
  · rw [hfin, hcat]
    rfl
  · rw [hfin, hcat]
    simp [pushPlaceholder, clearInputAndSession, pushUserMessage, List.append_assoc]
  · apply strIncludes_of_suffix _ _
      (("Error: ").data ++ ("Failed to upload ").data ++ f.name.data ++
        (": ").data ++ ("Failed to initialize upload: ").data)
    simp [String.data_append, List.append_assoc]

theorem C8_witness :
    (handleSendMessage envUploadFail sUpload).2 = TurnOutcome.errored
      ("Error: " ++ ("Failed to upload " ++ fileA.name ++ ": " ++
        ("Failed to initialize upload: " ++ "denied"))) ∧
    (handleSendMessage envUploadFail sUpload).1.isLoading = false ∧
    (handleSendMessage envUploadFail sUpload).1.uploadedFiles =
      sUpload.uploadedFiles := by
  have h := C8_theorem envUploadFail sUpload fileA [] "denied"
    TransferResp.networkError [] rfl rfl (by decide) (by decide)
  exact ⟨h.1, h.2.1, h.2.2.1⟩

end AnalystAI

